import Mathlib

/-!
Verification development for the `ideenergy` repository (i-de / globalomnium
utility-portal HTTP clients).  The Python data model and the pure slices of the
client and parser code are shallowly embedded as executable Lean definitions:

* JSON payloads (`json.loads` results) become the inductive `Json`;
* Python `datetime` values become `Int` seconds on the time line, with
  `timedelta(hours=1) = 3600`; calendar parsing (`strptime`) is embedded via a
  standard civil-calendar day count;
* Python `float`/`int` coercions of payload fields become `Option`-valued
  parsers over `Rat`/`Int` (finite decimal literals; IEEE specials are outside
  the rational model and do not occur in the payloads considered);
* raised exceptions become `Except`/`Option` results; the client's mutable
  state is passed explicitly, and an exception carries the state at raise time
  (Python exceptions do not roll back prior field assignments).
-/

namespace IdeEnergy

/-! ## JSON values (results of `json.loads`) -/

/-- A JSON value as produced by Python's `json.loads`: objects are modelled as
association lists (payloads of interest have no duplicate keys). `int` and
`float` are kept separate, as `json.loads` distinguishes them. -/
inductive Json where
| null : Json
| bool (b : Bool) : Json
| int (n : Int) : Json
| float (q : Rat) : Json
| str (s : String) : Json
| arr (xs : List Json) : Json
| obj (kvs : List (String × Json)) : Json

/-- Python `item[k]` / `item.get(k)` on a value: `some` only when the value is a
dict containing the key. On a non-dict value a subscript raises `TypeError`,
modelled as `none` where the source catches it. -/
def Json.get? : Json → String → Option Json
| .obj kvs, k => kvs.lookup k
| _, _ => none

/-- Python truthiness (`bool(x)`) of a JSON value. -/
def truthy : Json → Bool
| .null => false
| .bool b => b
| .int n => n != 0
| .float q => q != 0
| .str s => s != ""
| .arr xs => !xs.isEmpty
| .obj kvs => !kvs.isEmpty

/-- Python `x == "true"` for a JSON value `x` (only the string `"true"`
compares equal). -/
def eqStrTrue : Json → Bool
| .str s => s == "true"
| _ => false

/-! ## Python numeric coercions -/

/-- Numeric value of a digit run (most significant first). -/
def digitsVal (cs : List Char) : Nat :=
  cs.foldl (fun acc c => acc * 10 + (c.toNat - 48)) 0

/-- Python `str.strip()` of surrounding whitespace, as a character list. -/
def pyStrip (s : String) : List Char :=
  ((s.data.dropWhile Char.isWhitespace).reverse.dropWhile Char.isWhitespace).reverse

/-- Consume an optional leading sign, returning the sign and the rest. -/
def parseSign : List Char → Int × List Char
| '+' :: cs => (1, cs)
| '-' :: cs => (-1, cs)
| cs => (1, cs)

/-- Models Python `int(s)` on a string: optional surrounding whitespace,
optional sign, then a nonempty digit run (digit-group underscores and non-ASCII
digits are not modelled; they do not occur in the payloads considered). -/
def pyParseInt (s : String) : Option Int :=
  let cs := pyStrip s
  let p := parseSign cs
  if !p.2.isEmpty && p.2.all Char.isDigit then some (p.1 * (digitsVal p.2 : Int))
  else none

/-- `10 ^ e` as a rational, for a possibly negative exponent. -/
def ratPow10 (e : Int) : Rat :=
  if 0 ≤ e then ((10 : Rat) ^ e.toNat) else 1 / (10 : Rat) ^ (-e).toNat

/-- Exponent tail of a Python float literal: either nothing or `e`/`E`, an
optional sign and a nonempty digit run; the exponent's integer value. -/
def expTail : List Char → Option Int
| [] => some 0
| e :: cs =>
  if e = 'e' ∨ e = 'E' then
    let p := parseSign cs
    if !p.2.isEmpty && p.2.all Char.isDigit then
      some (p.1 * (digitsVal p.2 : Int))
    else none
  else none

/-- Scanner of a Python float literal: optional whitespace and sign, `ddd`,
`ddd.ddd`, `.ddd` or `ddd.` forms, optional exponent, with at least one
mantissa digit.  Yields (sign, integer-part value, fraction value, fraction
length, exponent); scanning is kept separate from rational-number construction
so that concrete literals evaluate by kernel reduction. -/
def pyFloatParts (s : String) : Option (Int × Nat × Nat × Nat × Int) :=
  let cs := pyStrip s
  let p := parseSign cs
  let ip := p.2.takeWhile Char.isDigit
  let rest1 := p.2.dropWhile Char.isDigit
  match rest1 with
  | '.' :: cs2 =>
    let fp := cs2.takeWhile Char.isDigit
    let rest2 := cs2.dropWhile Char.isDigit
    if ip.isEmpty && fp.isEmpty then none
    else (expTail rest2).map (fun ev => (p.1, digitsVal ip, digitsVal fp, fp.length, ev))
  | _ =>
    if ip.isEmpty then none
    else (expTail rest1).map (fun ev => (p.1, digitsVal ip, 0, 0, ev))

/-- The rational value of scanned float-literal pieces. -/
def ratOfParts : Int × Nat × Nat × Nat × Int → Rat
| (sg, ip, fp, flen, ev) =>
  (sg : Rat) * ((ip : Rat) + (fp : Rat) / (10 : Rat) ^ flen) * ratPow10 ev

/-- Models Python `float(s)` for finite decimal literals.  `inf`/`nan`/hex
literals are outside the rational model. -/
def pyParseFloat (s : String) : Option Rat :=
  (pyFloatParts s).map ratOfParts

/-- Truncation of a rational toward zero, as Python `int(float)` does. -/
def ratTrunc (q : Rat) : Int := q.num.tdiv (q.den : Int)

/-- Models Python `int(x)` applied to a JSON value: ints pass through, floats
truncate toward zero, bools are 0/1, strings are parsed as integer literals;
anything else raises `TypeError`, modelled as `none` where the source catches
it. -/
def pyInt : Json → Option Int
| .int n => some n
| .float q => some (ratTrunc q)
| .bool b => some (if b then 1 else 0)
| .str s => pyParseInt s
| _ => none

/-- Models Python `float(x)` applied to a JSON value: ints and floats pass
through, bools are 0/1, strings are parsed as decimal literals; `None`, lists
and dicts raise `TypeError`/`ValueError`, modelled as `none` where the source
catches it. -/
def pyFloat : Json → Option Rat
| .int n => some (n : Rat)
| .float q => some q
| .bool b => some (if b then 1 else 0)
| .str s => pyParseFloat s
| _ => none

/-! ## Python datetimes as seconds on the time line -/

/-- Leap year predicate of the proleptic Gregorian calendar (as used by
Python's `datetime`). -/
def isLeap (y : Int) : Bool := (y % 4 == 0 && y % 100 != 0) || y % 400 == 0

/-- Number of days of month `m` (1..12) of year `y`. -/
def daysInMonth (y : Int) (m : Nat) : Nat :=
  if m = 2 then (if isLeap y then 29 else 28)
  else if m = 4 ∨ m = 6 ∨ m = 9 ∨ m = 11 then 30
  else 31

/-- Days since 1970-01-01 of the civil date `y-m-d` (standard civil-calendar
day count; valid for `y ≥ 1`, which covers Python's `datetime.MINYEAR`).
This embeds Python `date` arithmetic and ordering onto `Int`. -/
def daysFromCivil (y : Int) (m d : Nat) : Int :=
  let yy : Int := if m ≤ 2 then y - 1 else y
  let era : Int := yy / 400
  let yoe : Int := yy - era * 400
  let mp : Nat := (m + 9) % 12
  let doy : Nat := (153 * mp + 2) / 5 + d - 1
  let doe : Int := yoe * 365 + yoe / 4 - yoe / 100 + (doy : Int)
  era * 146097 + doe - 719468

/-- A Python `datetime` as seconds since 1970-01-01 00:00:00; `timedelta`
addition becomes `Int` addition and `datetime` comparison becomes `Int`
comparison. -/
def mkDatetime (y : Int) (mo d h mi s : Nat) : Int :=
  daysFromCivil y mo d * 86400 + ((h * 3600 + mi * 60 + s : Nat) : Int)

/-- A run of at most `maxLen` digits, converted to `Nat`. -/
def toNatField (cs : List Char) (maxLen : Nat) : Option Nat :=
  if !cs.isEmpty && decide (cs.length ≤ maxLen) && cs.all Char.isDigit then
    some (digitsVal cs)
  else none

/-- Split a character list on a separator character. -/
def splitOnChar (sep : Char) : List Char → List (List Char)
| [] => [[]]
| c :: cs =>
  let r := splitOnChar sep cs
  if c = sep then [] :: r
  else
    match r with
    | g :: gs => (c :: g) :: gs
    | [] => [[c]]

/-- Models `datetime.strptime(s, d-m-Y)` followed by
`.replace(hour=0, minute=0, second=0)`: seconds at midnight of the parsed
date, `none` on a malformed string (the `ValueError` the source would see). -/
def strptime_dmY (s : String) : Option Int :=
  match splitOnChar '-' s.data with
  | [ds, ms, ys] => do
    let d ← toNatField ds 2
    let m ← toNatField ms 2
    let y ← toNatField ys 4
    if 1 ≤ m && m ≤ 12 && 1 ≤ d && d ≤ daysInMonth (y : Int) m && 1 ≤ y then
      some (mkDatetime (y : Int) m d 0 0 0)
    else none
  | _ => none

/-- Models `datetime.strptime(s, d/m/Y H:M)`: seconds of the parsed instant,
`none` on a malformed string. -/
def strptime_dmY_HM (s : String) : Option Int :=
  match splitOnChar ' ' s.data with
  | [datePart, timePart] =>
    match splitOnChar '/' datePart, splitOnChar ':' timePart with
    | [ds, ms, ys], [hs, mins] => do
      let d ← toNatField ds 2
      let m ← toNatField ms 2
      let y ← toNatField ys 4
      let h ← toNatField hs 2
      let mi ← toNatField mins 2
      if 1 ≤ m && m ≤ 12 && 1 ≤ d && d ≤ daysInMonth (y : Int) m && 1 ≤ y &&
          h ≤ 23 && mi ≤ 59 then
        some (mkDatetime (y : Int) m d h mi 0)
      else none
    | _, _ => none
  | _ => none

/-! ## Client state (`ideenergy/client.py`, class `Client`)

The mutable fields of a `Client` instance; the HTTP session and logger are
external collaborators with no bearing on the verified logic.  `datetime.now()`
is passed in explicitly as `now`. -/

structure ClientState where
  username : String
  password : String
  contract : Option String
  user_session_timeout : Int
  auto_renew_user_session : Bool
  login_ts : Option Int
deriving DecidableEq

/-- The constructor's default `user_session_timeout` (300 seconds; an `int`
argument is converted to `timedelta(seconds=...)`, identical on the seconds
time line). -/
def defaultUserSessionTimeout : Int := 300

/-- `Client.__init__` with every argument explicit (`contract`, timeout and
auto-renew are keyword arguments in the source). -/
def Client.init (username password : String) (contract : Option String)
    (user_session_timeout : Int) (auto_renew_user_session : Bool) : ClientState :=
  ⟨username, password, contract, user_session_timeout, auto_renew_user_session, none⟩

/-- `Client.__init__` with the source's defaults:
no contract, 300-second session timeout, auto-renew enabled. -/
def Client.initDefault (username password : String) : ClientState :=
  Client.init username password none defaultUserSessionTimeout true

/-- The `is_logged` property: false with no login timestamp, otherwise
`datetime.now() - login_ts < user_session_timeout`. (A `datetime` is always
truthy, so the source's `if not self._login_ts` is exactly the `none` test.) -/
def is_logged (c : ClientState) (now : Int) : Bool :=
  match c.login_ts with
  | none => false
  | some ts => decide (now - ts < c.user_session_timeout)

/-- The exception classes of `ideenergy/client.py` that the embedded operations
raise (`RequestFailedError` belongs to the transport layer, which is outside
the pure slice). -/
inductive ClientError where
| commandError (data : Json)
| invalidData (data : Json)
| invalidContract (id : String)

/-- An operation outcome: `ok` with the post-state, or a raised exception
together with the state at raise time (Python exceptions do not undo earlier
field assignments). -/
abbrev ClientStep (α : Type) := Except (ClientError × ClientState) α

/-- `Client.select_contract(id)` applied to the contract-selection response
(the body behind the `auth_required` wrapper; `request` is annotated to return
a dict, modelled as the association list `resp`):
raises `InvalidContractError(id)` unless `resp.get("success", False)` is
truthy, and only then assigns `self._contract = id`. -/
def select_contract (c : ClientState) (id : String) (resp : List (String × Json)) :
    ClientStep ClientState :=
  if truthy ((resp.lookup "success").getD (.bool false)) = false then
    .error (.invalidContract id, c)
  else
    .ok { c with contract := some id }

/-- `Client.login()` applied to the decoded login response `data` and, when a
contract is preconfigured, the contract-selection response `selResp` used by
the chained `select_contract` call:
* a non-dict response raises `InvalidData`;
* `data.get("success", "false") != "true"` raises `CommandError`;
* otherwise `self._login_ts = datetime.now()` is assigned, then the
  preconfigured contract (if any) is selected. -/
def login (c : ClientState) (now : Int) (data : Json)
    (selResp : List (String × Json)) : ClientStep ClientState :=
  match data with
  | .obj kvs =>
    if eqStrTrue ((kvs.lookup "success").getD (.str "false")) = false then
      .error (.commandError data, c)
    else
      let c1 := { c with login_ts := some now }
      match c.contract with
      | some id => select_contract c1 id selResp
      | none => .ok c1
  | _ => .error (.invalidData data, c)

/-- The `auth_required` decorator: runs `login()` first exactly when
`client._auto_renew_user_session is True and client.is_logged is False`,
then runs the wrapped operation on the resulting state (a failed login
propagates).  The second component records whether a login call was made. -/
def auth_required {α : Type} (fn : ClientState → ClientStep α)
    (c : ClientState) (now : Int) (loginData : Json)
    (selResp : List (String × Json)) : ClientStep α × Bool :=
  if c.auto_renew_user_session && !is_logged c now then
    match login c now loginData selResp with
    | .ok c2 => (fn c2, true)
    | .error e => (.error e, true)
  else (fn c, false)

/-- The `Measure` dataclass. -/
structure Measure where
  accumulate : Int
  instant : Rat
deriving DecidableEq

/-- `Client.get_measure()` applied to the measure response (a dict per the
`request` annotation): builds
`Measure(accumulate=int(data["valLecturaContador"]), instant=float(data["valMagnitud"]))`,
re-raising `KeyError`/`ValueError` as `InvalidData(data)`. -/
def get_measure (data : List (String × Json)) : Except ClientError Measure :=
  match (data.lookup "valLecturaContador").bind pyInt,
      (data.lookup "valMagnitud").bind pyFloat with
  | some a, some m => .ok ⟨a, m⟩
  | _, _ => .error (.invalidData (.obj data))

/-- Lines 398-399 of `ideenergy/client.py` (`Client.get_historical_data`) and
lines 456-457 of `globalomnium/client.py` (`Client._get_historical_consumption`):

    start = min([start, end])
    end = max([start, end])

Note the second assignment reads the *reassigned* `start`.  Dates are modelled
as points on the seconds time line; the returned pair is the range interpolated
into the request URL (and, in the globalomnium client, the bounds of the
post-filter on the parsed periods). -/
def get_historical_data_range (start endDate : Int) : Int × Int :=
  let start2 := min start endDate
  let end2 := max start2 endDate
  (start2, end2)

/-! ## Spec-modelled login failure classes

`ideenergy/cli.py` imports `UserExpiredError` from the package and catches it
around every request, but neither its class definition nor the `login()` branch
that raises it is present under the sources at hand; only this caller is.  The
distinct expired-account failure class is therefore modelled from the spec. -/

/-- Modelled from the spec: the failure classes of `login()` - `InvalidData`
when the response is not a well-formed success object, `CommandError` when the
server reports a non-success result, and a distinct `UserExpiredError` when the
server signals an expired-account state (provider-specific sentinel value).
The sentinel itself is provider-specific and not in the sources, so it is a
parameter below. -/
inductive SpecLoginError where
| commandError (data : Json)
| invalidData (data : Json)
| userExpired (data : Json)

/-- Modelled from the spec: `login()` with the expired-account branch whose
definition is missing from the sources (only the `cli.py` caller that catches
`UserExpiredError` is present).  `expiredSig` is the provider-specific
expired-account sentinel test; a non-dict response is `InvalidData`, a
non-success response is `UserExpiredError` when the sentinel matches and
`CommandError` otherwise. -/
def spec_login (expiredSig : Json → Bool) (c : ClientState) (now : Int)
    (data : Json) : Except SpecLoginError ClientState :=
  match data with
  | .obj kvs =>
    if eqStrTrue ((kvs.lookup "success").getD (.str "false")) then
      .ok { c with login_ts := some now }
    else if expiredSig data then .error (.userExpired data)
    else .error (.commandError data)
  | _ => .error (.invalidData data)

/-! ## Data model of `ideenergy/types.py` -/

/-- The `PeriodValue` dataclass: one hourly bucket of a series.  The source's
field `end` is a Lean keyword and is quoted. -/
structure PeriodValue where
  start : Int
  «end» : Int
  value : Rat
deriving DecidableEq

/-- The `ConsumptionForPeriod` dataclass (a `PeriodValue` with a tariff-period
breakdown).  `value` and the breakdown entries are stored as the raw payload
values, as the source's loop does. -/
structure ConsumptionForPeriod where
  start : Int
  «end» : Int
  value : Json
  desglosed : List (Json × Json)

/-- The `HistoricalConsumption` dataclass. -/
structure HistoricalConsumption where
  periods : List ConsumptionForPeriod
  total : Json
  desglosed : List (Json × Json)

/-- The `DemandAtInstant` dataclass: one power-demand spike sample; `value` is
the raw `item["y"]` payload value. -/
structure DemandAtInstant where
  dt : Int
  value : Json

/-- The `HistoricalPowerDemand` dataclass. -/
structure HistoricalPowerDemand where
  demands : List DemandAtInstant

/-! ## `ideenergy/parsers.py` -/

/-- The inner `_normalize_historical_item(idx, item)` of
`parser_generic_historical_data`: `None` entries yield `None`; otherwise
`float(item["valor"])` is attempted and `KeyError`/`ValueError`/`TypeError`
yield `None`; a successful coercion yields a `PeriodValue` one hour wide at
`base_dt + idx` hours. -/
def normalize_historical_item (base_dt : Int) (idx : Nat) (item : Json) :
    Option PeriodValue :=
  match item with
  | .null => none
  | _ =>
    let start := base_dt + 3600 * (idx : Int)
    match (item.get? "valor").bind pyFloat with
    | some v => some ⟨start, start + 3600, v⟩
    | none => none

/-- `parser_generic_historical_data(data, base_dt)` of `ideenergy/parsers.py`:
takes `data["y"]["data"][0]` as the hourly array, normalizes each entry with
its enumeration index and filters out the `None`s.  The returned dict has the
single key `"historical"`, modelled as the list directly; `none` models an
uncaught exception for shapes where the subscripts fail (non-list iterables at
`data["y"]["data"][0]` are not modelled). -/
def parser_generic_historical_data (data : Json) (base_dt : Int) :
    Option (List PeriodValue) :=
  match (data.get? "y").bind (fun j => j.get? "data") with
  | some (.arr (first :: _)) =>
    match first with
    | .arr items =>
      some ((items.enum.map
        (fun p => normalize_historical_item base_dt p.1 p.2)).filterMap id)
    | _ => none
  | _ => none

/-- The JSON array underlying a value, when it is an array. -/
def asArr : Json → Option (List Json)
| .arr xs => some xs
| _ => none

/-- The string underlying a value, when it is a string. -/
def asStr : Json → Option String
| .str s => some s
| _ => none

/-- The inner `list_to_dict(values, keys)` of `parse_historical_consumption`:
a dict comprehension over `range(len(values))`; `keys[idx]` raises `IndexError`
(modelled as `none`) when `keys` is shorter than `values`.  The dict is
modelled as the association list of `(key, value)` pairs (the payloads of
interest have distinct keys). -/
def list_to_dict (values keys : List Json) : Option (List (Json × Json)) :=
  if values.length ≤ keys.length then some (keys.zip values) else none

/-- Sequential construction of the `ConsumptionForPeriod` list in
`parse_historical_consumption`: one entry per element of `valores`, the `idx`-th
one hour wide at `start + idx` hours, with the `idx`-th row of
`valoresPeriodosTarifarios` zipped against the period names.  `none` models an
exception escaping the loop. -/
def consumption_rows (start : Int) (period_names : List Json) :
    List (Nat × Json) → List Json → Option (List ConsumptionForPeriod)
| [], _ => some []
| (idx, value) :: rest, vpt => do
  let row ← vpt[idx]?
  let rowArr ← asArr row
  let dd ← list_to_dict rowArr period_names
  let tl ← consumption_rows start period_names rest vpt
  some (⟨start + 3600 * (idx : Int), start + 3600 * ((idx : Int) + 1),
    value, dd⟩ :: tl)

/-- `parse_historical_consumption(data)` of `ideenergy/parsers.py`: reads
`data[0]["fechaDesde"]` as a `d-m-Y` date normalized to midnight, the tariff
period names, the totals breakdown, and appends one `ConsumptionForPeriod` per
entry of `data[0]["valores"]` at consecutive hour offsets.  `none` models an
uncaught exception (missing keys, malformed date, length mismatches). -/
def parse_historical_consumption (data : Json) : Option HistoricalConsumption :=
  match data with
  | .arr (d0 :: _) => do
    let fd ← (d0.get? "fechaDesde").bind asStr
    let start ← strptime_dmY fd
    let period_names ← (d0.get? "periodos").bind asArr
    let totalsRaw ← (d0.get? "totalesPeriodosTarifarios").bind asArr
    let desg ← list_to_dict totalsRaw period_names
    let total ← d0.get? "total"
    let valores ← (d0.get? "valores").bind asArr
    let vpt ← (d0.get? "valoresPeriodosTarifarios").bind asArr
    let periods ← consumption_rows start period_names valores.enum vpt
    pure ⟨periods, total, desg⟩
  | _ => none

/-- Pointwise order of power-demand samples by timestamp: the sort key
`lambda x: x.dt` of `parse_historical_power_demand_data`. -/
def demandLE (x y : DemandAtInstant) : Prop := x.dt ≤ y.dt

instance : DecidableRel demandLE :=
  fun x y => inferInstanceAs (Decidable (x.dt ≤ y.dt))

instance : IsTotal DemandAtInstant demandLE := ⟨fun x y => Int.le_total x.dt y.dt⟩

instance : IsTrans DemandAtInstant demandLE := ⟨fun _ _ _ h h' => le_trans h h'⟩

/-- The inner `_normalize_item` of `parse_historical_power_demand_data`:
`strptime(item["name"], d/m/Y H:M)` and the raw `item["y"]`; `none` models the
`KeyError`/`ValueError` that would escape. -/
def normalize_power_demand_item (item : Json) : Option DemandAtInstant := do
  let nm ← (item.get? "name").bind asStr
  let dt ← strptime_dmY_HM nm
  let y ← item.get? "y"
  pure ⟨dt, y⟩

/-- Exception-propagating list comprehension: `some` of the image when `f`
succeeds on every element, `none` as soon as it fails. -/
def traverseOpt {α β : Type} (f : α → Option β) : List α → Option (List β)
| [] => some []
| x :: xs =>
  match f x, traverseOpt f xs with
  | some y, some ys => some (y :: ys)
  | _, _ => none

/-- `parse_historical_power_demand_data(data)` of `ideenergy/parsers.py`:
flattens the monthly sub-lists of `data["potMaxMens"]`, normalizes each sample
and sorts the flat sequence by timestamp.  Python's `sorted` is stable, which
`List.insertionSort` embeds exactly. -/
def parse_historical_power_demand_data (data : Json) :
    Option HistoricalPowerDemand :=
  match data.get? "potMaxMens" with
  | some (.arr months) => do
    let monthLists ← traverseOpt asArr months
    let demands ← traverseOpt normalize_power_demand_item monthLists.flatten
    pure ⟨List.insertionSort demandLE demands⟩
  | _ => none

/-! ## `globalomnium/parsers.py` -/

/-- The dict built by the globalomnium variant of `_normalize_historical_item`:
unlike the `ideenergy` variant, its `value` may be `None`. -/
structure GoPeriodDict where
  start : Int
  «end» : Int
  value : Option Rat
deriving DecidableEq

/-- The globalomnium `_normalize_historical_item(idx, item)`: `None` entries
yield `None`, but a failed `float(item["valor"])` coercion only sets
`value = None` - the entry itself is still returned. -/
def go_normalize_historical_item (base_dt : Int) (idx : Nat) (item : Json) :
    Option GoPeriodDict :=
  match item with
  | .null => none
  | _ =>
    let start := base_dt + 3600 * (idx : Int)
    some ⟨start, start + 3600, (item.get? "valor").bind pyFloat⟩

/-- The dict returned by the globalomnium `parser_generic_historical_data`. -/
structure GoHistorical where
  accumulated : Rat
  historical : List GoPeriodDict
deriving DecidableEq

/-- `parser_generic_historical_data(data, base_dt)` of
`globalomnium/parsers.py`: same enumeration and `None`-filter over
`data["y"]["data"][0]` as the `ideenergy` variant, but with the
value-may-be-`None` item normalizer, plus `accumulated = float(data["acumulado"])`. -/
def go_parser_generic_historical_data (data : Json) (base_dt : Int) :
    Option GoHistorical :=
  match (data.get? "y").bind (fun j => j.get? "data") with
  | some (.arr (first :: _)) =>
    match first with
    | .arr items =>
      match (data.get? "acumulado").bind pyFloat with
      | some acc =>
        some ⟨acc, (items.enum.map
          (fun p => go_normalize_historical_item base_dt p.1 p.2)).filterMap id⟩
      | none => none
    | _ => none
  | _ => none

/-! ## Spec-side definitions and concrete claim fixtures -/

/-- Spec-side reading of one hourly entry: a missing (`null`) entry carries no
value; otherwise the value is the entry's `"valor"` field coerced to a
floating-point number, when the coercion succeeds. -/
def specEntryValue (item : Json) : Option Rat :=
  match item with
  | .null => none
  | _ => (item.get? "valor").bind pyFloat

/-- C2 counterexample payload: a single hourly entry whose `"valor"` is the
non-coercible string `"x"` (plus the `acumulado` total the globalomnium parser
reads). -/
def C2_payload : Json :=
  .obj [("acumulado", .int 0),
    ("y", .obj [("data", .arr [.arr [.obj [("valor", .str "x")]]])])]

/-- The one-week, 168-hourly-entry fixture of the round-trip scenario: every
entry reads `"valor": 0.0`. -/
def C2_fixture : Json :=
  .obj [("y", .obj [("data",
    .arr [.arr (List.replicate 168 (.obj [("valor", .float 0)]))])])]

/-- The periods the fixture parses to: one per entry, at consecutive hours. -/
def C2_fixture_periods : List PeriodValue :=
  (List.range 168).map (fun i => ⟨3600 * (i : Int), 3600 * (i : Int) + 3600, 0⟩)

/-- C3 witness concrete generic-parser payload: three hourly entries of which
the middle one is `null`. -/
def C3_generic_payload : Json :=
  .obj [("y", .obj [("data", .arr [.arr
    [.obj [("valor", .float 1)], .null, .obj [("valor", .float 2)]]])])]

/-- C3 witness concrete consumption payload: the 2022-08-19 start date with
three hourly values and per-period breakdowns. -/
def C3_consumption_payload : Json :=
  .arr [.obj [
    ("fechaDesde", .str "19-08-2022"),
    ("periodos", .arr [.str "p1", .str "p2"]),
    ("totalesPeriodosTarifarios", .arr [.int 1, .int 2]),
    ("total", .float 48867),
    ("valores", .arr [.int 10, .int 20, .int 30]),
    ("valoresPeriodosTarifarios", .arr [.arr [.int 1], .arr [.int 2], .arr [.int 3]])]]

/-- The record the C3 consumption payload parses to: hourly periods from
2022-08-19 00:00:00 (1660867200 on the seconds time line). -/
def C3_consumption_result : HistoricalConsumption :=
  ⟨[⟨1660867200, 1660870800, .int 10, [(.str "p1", .int 1)]⟩,
    ⟨1660870800, 1660874400, .int 20, [(.str "p1", .int 2)]⟩,
    ⟨1660874400, 1660878000, .int 30, [(.str "p1", .int 3)]⟩],
   .float 48867, [(.str "p1", .int 1), (.str "p2", .int 2)]⟩

/-- C7 witness payload: two monthly sub-lists holding three samples in
non-chronological order. -/
def C7_payload : Json := .obj [("potMaxMens", .arr [
  .arr [.obj [("name", .str "28/05/2022 22:15"), ("y", .int 2816)],
        .obj [("name", .str "01/05/2022 10:00"), ("y", .int 100)]],
  .arr [.obj [("name", .str "15/04/2022 08:30"), ("y", .int 50)]]])]

/-- The C7 witness payload's samples in flattened input order. -/
def C7_flat_demands : List DemandAtInstant :=
  [⟨1653776100, .int 2816⟩, ⟨1651399200, .int 100⟩, ⟨1650011400, .int 50⟩]

/-- The C7 witness payload's samples sorted by timestamp. -/
def C7_sorted_demands : List DemandAtInstant :=
  [⟨1650011400, .int 50⟩, ⟨1651399200, .int 100⟩, ⟨1653776100, .int 2816⟩]

/-- The two periods the C3 generic payload parses to. -/
def C3_generic_periods : List PeriodValue := [⟨0, 3600, 1⟩, ⟨7200, 10800, 2⟩]

/-! ## Claim C1 -/

/-- C1: the historical-data range normalization is NOT order-independent.
`start = min([start, end]); end = max([start, end])` reads the reassigned
`start` in the second line, so calling with swapped arguments
(1970-01-02, 1970-01-01) collapses the requested range to a single instant
(1970-01-01, 1970-01-01) instead of reproducing the (1970-01-01, 1970-01-02)
range of the direct call: the two calls request different ranges and hence
different results. -/
theorem C1_swapped_range_collapses :
    get_historical_data_range 0 86400 = (0, 86400) ∧
    get_historical_data_range 86400 0 = (0, 0) ∧
    get_historical_data_range 86400 0 ≠ get_historical_data_range 0 86400 := by
  refine ⟨rfl, rfl, ?_⟩
  decide

/-! ## Shared helpers for the parser claims -/

/-- The ideenergy item normalizer agrees with the spec-side reading: the entry
survives exactly when it has a value, and then occupies the one-hour slot of
its own array index. -/
lemma normalize_historical_item_eq (base : Int) (idx : Nat) (item : Json) :
    normalize_historical_item base idx item =
      (specEntryValue item).map
        (fun v => ⟨base + 3600 * (idx : Int), base + 3600 * (idx : Int) + 3600, v⟩) := by
  rcases item with _ | b | n | q | s | xs | kvs
  · rfl
  all_goals
    simp only [normalize_historical_item, specEntryValue]
    split
    · rename_i v heq
      rw [heq]
      rfl
    · rename_i heq
      rw [heq]
      rfl

/-- Spec-side form of the ideenergy generic parser's output: the
`filterMap` of the spec-side entry reading over the enumerated hourly array. -/
lemma parser_generic_repr (data : Json) (items rest : List Json) (base : Int)
    (hy : (data.get? "y").bind (fun j => j.get? "data") =
      some (.arr (.arr items :: rest))) :
    parser_generic_historical_data data base =
      some (items.enum.filterMap
        (fun p => (specEntryValue p.2).map
          (fun v => ⟨base + 3600 * (p.1 : Int), base + 3600 * (p.1 : Int) + 3600, v⟩))) := by
  simp only [parser_generic_historical_data, hy]
  rw [List.filterMap_map]
  have hfun : (id ∘ fun p : Nat × Json => normalize_historical_item base p.1 p.2) =
      (fun p : Nat × Json => (specEntryValue p.2).map
        (fun v => (⟨base + 3600 * (p.1 : Int), base + 3600 * (p.1 : Int) + 3600, v⟩ :
          PeriodValue))) := by
    funext p
    simp only [Function.comp, id, normalize_historical_item_eq]
  rw [hfun]

/-- The globalomnium item normalizer retains every non-`null` entry, recording
the spec-side reading (possibly `none`) as its `value`. -/
lemma go_normalize_historical_item_eq (base : Int) (idx : Nat) (item : Json)
    (h : item ≠ .null) :
    go_normalize_historical_item base idx item =
      some ⟨base + 3600 * (idx : Int), base + 3600 * (idx : Int) + 3600,
        specEntryValue item⟩ := by
  rcases item with _ | b | n | q | s | xs | kvs
  · exact absurd rfl h
  all_goals rfl

/-- Inversion of the globalomnium generic parser: on the generic payload shape
its `historical` field is the `filterMap` of the item normalizer over the
enumerated hourly array. -/
lemma go_parser_generic_inv (data : Json) (items rest : List Json) (base : Int)
    (r : GoHistorical)
    (hy : (data.get? "y").bind (fun j => j.get? "data") =
      some (.arr (.arr items :: rest)))
    (hp : go_parser_generic_historical_data data base = some r) :
    r.historical = items.enum.filterMap
      (fun p => go_normalize_historical_item base p.1 p.2) := by
  simp only [go_parser_generic_historical_data, hy] at hp
  rcases hacc : (data.get? "acumulado").bind pyFloat with _ | acc <;> rw [hacc] at hp
  · cases hp
  · cases hp
    rw [List.filterMap_map]
    rfl

/-- `filterMap` over a list where the function succeeds everywhere preserves
length and positions. -/
lemma filterMap_all_some {α β : Type} (f : α → Option β) :
    ∀ (xs : List α), (∀ a ∈ xs, (f a).isSome) →
      (xs.filterMap f).length = xs.length ∧
      ∀ i : Nat, (xs.filterMap f)[i]? = xs[i]?.bind f := by
  intro xs
  induction xs with
  | nil =>
    intro _
    refine ⟨rfl, fun i => ?_⟩
    simp
  | cons x xs ih =>
    intro h
    rcases hfx : f x with _ | y
    · exact absurd (h x (by simp)) (by simp [hfx])
    · have ihh := ih (fun a ha => h a (by simp [ha]))
      refine ⟨by simp [List.filterMap_cons, hfx, ihh.1], fun i => ?_⟩
      cases i with
      | zero => simp [List.filterMap_cons, hfx]
      | succ n =>
        simp only [List.filterMap_cons, hfx, List.getElem?_cons_succ]
        exact ihh.2 n

/-! ## Claim C2 -/

/-- C2 is false as stated for the globalomnium variant of the generic
historical parser (one of the two implementations the claim covers): on a
payload whose only entry has the non-coercible `"valor"` value `"x"`, the
entry is NOT dropped - it is retained as a placeholder with `value = None` -
while the ideenergy variant drops it.  The two cited implementations disagree,
so "dropped rather than retained as a null placeholder" does not hold of both. -/
theorem C2_counterexample :
    (go_parser_generic_historical_data C2_payload 0).map GoHistorical.historical =
      some [⟨0, 3600, none⟩] ∧
    parser_generic_historical_data C2_payload 0 = some [] := by
  exact ⟨rfl, rfl⟩

/-- C2 amended: for the ideenergy generic historical parser, a `null` entry or
an entry whose `"valor"` cannot be coerced to a float is dropped (no period
occupies its hour slot), each surviving entry at array index `idx` becomes a
`PeriodValue` with `start = base + idx` hours, `end = start + 1` hour and the
coerced value, and an all-valid `n`-entry array yields exactly `n` periods with
the `idx`-th period at slot `idx`; the globalomnium variant drops only `null`
entries and retains a non-coercible entry as a `value = None` placeholder in
its slot. -/
theorem C2_generic_parser_gap_semantics :
    (∀ (data : Json) (items rest : List Json) (base : Int) (l : List PeriodValue),
      (data.get? "y").bind (fun j => j.get? "data") =
        some (.arr (.arr items :: rest)) →
      parser_generic_historical_data data base = some l →
      ((∀ (idx : Nat) (it : Json), items[idx]? = some it → specEntryValue it = none →
        ∀ p ∈ l, p.start ≠ base + 3600 * (idx : Int)) ∧
       (∀ (idx : Nat) (it : Json) (v : Rat), items[idx]? = some it → specEntryValue it = some v →
        (⟨base + 3600 * (idx : Int), base + 3600 * (idx : Int) + 3600, v⟩ :
          PeriodValue) ∈ l) ∧
       ((∀ it ∈ items, (specEntryValue it).isSome) →
        l.length = items.length ∧
        ∀ (idx : Nat) (it : Json) (v : Rat), items[idx]? = some it → specEntryValue it = some v →
          l[idx]? = some ⟨base + 3600 * (idx : Int),
            base + 3600 * (idx : Int) + 3600, v⟩))) ∧
    (∀ (data : Json) (items rest : List Json) (base : Int) (r : GoHistorical),
      (data.get? "y").bind (fun j=> j.get? "data") =
        some (.arr (.arr items :: rest)) →
      go_parser_generic_historical_data data base = some r →
      ∀ (idx : Nat) (it : Json), items[idx]? = some it → it ≠ .null → specEntryValue it = none →
        (⟨base + 3600 * (idx : Int), base + 3600 * (idx : Int) + 3600,
          (none : Option Rat)⟩ : GoPeriodDict) ∈ r.historical) := by
  constructor
  · intro data items rest base l hy hp
    rw [parser_generic_repr data items rest base hy] at hp
    have hl : l = items.enum.filterMap
        (fun p => (specEntryValue p.2).map
          (fun v => ⟨base + 3600 * (p.1 : Int), base + 3600 * (p.1 : Int) + 3600, v⟩)) := by
      cases hp
      rfl
    subst hl
    refine ⟨?_, ?_, ?_⟩
    · intro idx it hidx hnone p hp hstart
      rcases List.mem_filterMap.mp hp with ⟨⟨j, itj⟩, hmem, hfq⟩
      rcases hsj : specEntryValue itj with _ | v <;> rw [hsj] at hfq
      · cases hfq
      · have hpj : p.start = base + 3600 * (j : Int) := by
          cases hfq
          rfl
        have hij : (j : Int) = (idx : Int) := by
          rw [hpj] at hstart
          omega
        have hj : j = idx := by exact_mod_cast hij
        subst hj
        have : items[j]? = some itj := (List.mk_mem_enum_iff_getElem?.mp hmem)
        rw [hidx] at this
        cases this
        rw [hsj] at hnone
        cases hnone
    · intro idx it v hidx hv
      refine List.mem_filterMap.mpr ⟨(idx, it), ?_, ?_⟩
      · exact List.mk_mem_enum_iff_getElem?.mpr hidx
      · rw [hv]
        rfl
    · intro hvalid
      have hall : ∀ p ∈ items.enum,
          ((fun p : Nat × Json => (specEntryValue p.2).map
            (fun v => (⟨base + 3600 * (p.1 : Int), base + 3600 * (p.1 : Int) + 3600, v⟩ :
              PeriodValue))) p).isSome := by
        intro p hpmem
        have hmem2 : p.2 ∈ items := by
          have h2 := List.mk_mem_enum_iff_getElem?.mp (show (p.1, p.2) ∈ items.enum by
            simpa using hpmem)
          exact List.getElem?_mem h2
        have hvs := hvalid _ hmem2
        rcases hv : specEntryValue p.2 with _ | v <;> rw [hv] at hvs
        · cases hvs
        · simp [hv]
      obtain ⟨hlen, hget⟩ := filterMap_all_some _ items.enum hall
      refine ⟨by rw [hlen, List.enum_length], ?_⟩
      intro idx it v hidx hv
      rw [hget idx, List.getElem?_enum, hidx]
      simp only [Option.map_some', Option.some_bind, hv]
  · intro data items rest base r hy hp idx it hidx hnull hnone
    rw [go_parser_generic_inv data items rest base r hy hp]
    refine List.mem_filterMap.mpr ⟨(idx, it), ?_, ?_⟩
    · exact List.mk_mem_enum_iff_getElem?.mpr hidx
    · rw [go_normalize_historical_item_eq base idx it hnull, hnone]

set_option maxRecDepth 4000 in
/-- Witness for C2 on the 168-entry round-trip fixture: parsing yields exactly
168 periods, and period 25 sits at `base + 25` hours with the literal value 0. -/
theorem C2_witness :
    parser_generic_historical_data C2_fixture 0 = some C2_fixture_periods ∧
    C2_fixture_periods.length = 168 ∧
    C2_fixture_periods[25]? =
      some ⟨0 + 3600 * (25 : Int), 0 + 3600 * (25 : Int) + 3600, 0⟩ := by
  have hparse : parser_generic_historical_data C2_fixture 0 =
      some C2_fixture_periods := by rfl
  have h := ((C2_generic_parser_gap_semantics).1 C2_fixture
      (List.replicate 168 (.obj [("valor", .float 0)])) [] 0 C2_fixture_periods
      rfl hparse).2.2 (by decide)
  refine ⟨hparse, ?_, ?_⟩
  · rw [h.1]
    rfl
  · exact h.2 25 (.obj [("valor", .float 0)]) 0 rfl rfl

/-! ## Claim C3 -/

lemma bind_eq_optionBind {α β : Type} (x : Option α) (f : α → Option β) :
    x >>= f = x.bind f := rfl

lemma le_fst_of_mem_enumFrom {α : Type} {p : Nat × α} {n : Nat} {l : List α}
    (h : p ∈ l.enumFrom n) : n ≤ p.1 := by
  rcases p with ⟨i, a⟩
  exact (List.mk_mem_enumFrom_iff_le_and_getElem?_sub.mp h).1

/-- `filterMap` over an enumerated list whose survivors sit at
`base + 3600 * index` is sorted by that key. -/
lemma pairwise_key_filterMap_enumFrom {β : Type} (key : β → Int) (base : Int)
    (f : Nat × Json → Option β)
    (hf : ∀ (i : Nat) (it : Json) (p : β), f (i, it) = some p →
      key p = base + 3600 * (i : Int)) :
    ∀ (items : List Json) (n : Nat),
      ((items.enumFrom n).filterMap f).Pairwise (fun p q => key p ≤ key q) := by
  intro items
  induction items with
  | nil =>
    intro n
    simp
  | cons x xs ih =>
    intro n
    rw [List.enumFrom_cons]
    rcases hfx : f (n, x) with _ | p
    · rw [List.filterMap_cons_none hfx]
      exact ih (n + 1)
    · rw [List.filterMap_cons_some hfx]
      refine List.Pairwise.cons ?_ (ih (n + 1))
      intro q hq
      rcases List.mem_filterMap.mp hq with ⟨⟨j, itj⟩, hmem, hfq⟩
      have hj : n + 1 ≤ j := le_fst_of_mem_enumFrom hmem
      have h1 := hf _ _ _ hfx
      have h2 := hf _ _ _ hfq
      rw [h1, h2]
      have hj2 : (n : Int) + 1 ≤ (j : Int) := by exact_mod_cast hj
      omega

/-- Shape inversion for the ideenergy generic parser: success exposes the
hourly array. -/
lemma parser_generic_shape (data : Json) (base : Int) (l : List PeriodValue)
    (hp : parser_generic_historical_data data base = some l) :
    ∃ items rest, (data.get? "y").bind (fun j => j.get? "data") =
      some (.arr (.arr items :: rest)) := by
  unfold parser_generic_historical_data at hp
  split at hp
  · rename_i first rest heq
    split at hp
    · rename_i items
      exact ⟨items, rest, heq⟩
    · cases hp
  · cases hp

/-- The loop of `parse_historical_consumption` produces hour slots at
consecutive offsets of the enumeration indices: every produced period is one
hour wide at `start + 3600 * index`, and the list is sorted by `start`. -/
lemma consumption_rows_invariants (start : Int) (names : List Json) (vpt : List Json) :
    ∀ (l : List Json) (n : Nat) (out : List ConsumptionForPeriod),
      consumption_rows start names (l.enumFrom n) vpt = some out →
      (∀ p ∈ out, (∃ j : Nat, n ≤ j ∧ p.start = start + 3600 * (j : Int)) ∧
        p.«end» = p.start + 3600) ∧
      out.Pairwise (fun p q => p.start ≤ q.start) := by
  intro l
  induction l with
  | nil =>
    intro n out h
    cases h
    exact ⟨by simp, by simp⟩
  | cons x xs ih =>
    intro n out h
    rw [List.enumFrom_cons] at h
    simp only [consumption_rows, bind_eq_optionBind, Option.bind_eq_some] at h
    obtain ⟨row, h1, h⟩ := h
    obtain ⟨rowArr, h2, h⟩ := h
    obtain ⟨dd, h3, h⟩ := h
    obtain ⟨tl, h4, hfin⟩ := h
    cases hfin
    have iht := ih (n + 1) tl h4
    constructor
    · intro p hp
      rcases List.mem_cons.mp hp with rfl | hp2
      · refine ⟨⟨n, le_refl n, rfl⟩, ?_⟩
        show start + 3600 * ((n : Int) + 1) = start + 3600 * (n : Int) + 3600
        ring
      · obtain ⟨⟨j, hj, hst⟩, hend⟩ := iht.1 p hp2
        exact ⟨⟨j, by omega, hst⟩, hend⟩
    · refine List.Pairwise.cons ?_ iht.2
      intro q hq
      obtain ⟨⟨j, hj, hst⟩, _⟩ := iht.1 q hq
      rw [hst]
      show start + 3600 * (n : Int) ≤ start + 3600 * (j : Int)
      have hj2 : (n : Int) + 1 ≤ (j : Int) := by exact_mod_cast hj
      omega

/-- C3: on every payload both cited parsers accept, each produced period is
exactly one hour wide (`end = start + 1 hour`) and the period sequence is in
non-decreasing (indeed here non-strictly sorted) order of `start`. -/
theorem C3_hourly_period_invariants :
    (∀ (data : Json) (base : Int) (l : List PeriodValue),
      parser_generic_historical_data data base = some l →
      (∀ p ∈ l, p.«end» = p.start + 3600) ∧
      l.Pairwise (fun p q => p.start ≤ q.start)) ∧
    (∀ (data : Json) (h : HistoricalConsumption),
      parse_historical_consumption data = some h →
      (∀ p ∈ h.periods, p.«end» = p.start + 3600) ∧
      h.periods.Pairwise (fun p q => p.start ≤ q.start)) := by
  constructor
  · intro data base l hp
    obtain ⟨items, rest, hy⟩ := parser_generic_shape data base l hp
    rw [parser_generic_repr data items rest base hy] at hp
    cases hp
    constructor
    · intro p hpmem
      rcases List.mem_filterMap.mp hpmem with ⟨⟨j, itj⟩, hmem, hfq⟩
      rcases hsj : specEntryValue itj with _ | v <;> rw [hsj] at hfq
      · cases hfq
      · cases hfq
        rfl
    · exact pairwise_key_filterMap_enumFrom PeriodValue.start base _
        (fun i it p hfp => by
          rcases hsi : specEntryValue it with _ | v <;> rw [hsi] at hfp
          · cases hfp
          · cases hfp
            rfl) items 0
  · intro data h hp
    rcases data with _ | b | n | q | s | xs | kvs
    iterate 5 cases hp
    case arr =>
      rcases xs with _ | ⟨d0, rest⟩
      · cases hp
      · simp only [parse_historical_consumption, bind_eq_optionBind,
          Option.bind_eq_some] at hp
        obtain ⟨fd, hfd, hp⟩ := hp
        obtain ⟨start, hstart, hp⟩ := hp
        obtain ⟨names, hnames, hp⟩ := hp
        obtain ⟨totals, htot, hp⟩ := hp
        obtain ⟨desg, hdesg, hp⟩ := hp
        obtain ⟨total, htotal, hp⟩ := hp
        obtain ⟨valores, hval, hp⟩ := hp
        obtain ⟨vpt, hvpt, hp⟩ := hp
        obtain ⟨periods, hper, hfin⟩ := hp
        have hh : h = ⟨periods, total, desg⟩ := by
          cases hfin
          rfl
        subst hh
        have key := consumption_rows_invariants start names vpt valores 0 periods hper
        exact ⟨fun p hpm => (key.1 p hpm).2, key.2⟩
    case obj => cases hp

/-- Witness for C3 at the two concrete payloads: both parsers succeed and both
invariants hold of the parsed outputs. -/
theorem C3_witness :
    parser_generic_historical_data C3_generic_payload 0 = some C3_generic_periods ∧
    ((∀ p ∈ C3_generic_periods, p.«end» = p.start + 3600) ∧
      C3_generic_periods.Pairwise (fun p q => p.start ≤ q.start)) ∧
    parse_historical_consumption C3_consumption_payload = some C3_consumption_result ∧
    ((∀ p ∈ C3_consumption_result.periods, p.«end» = p.start + 3600) ∧
      C3_consumption_result.periods.Pairwise (fun p q => p.start ≤ q.start)) := by
  have h1 : parser_generic_historical_data C3_generic_payload 0 =
      some C3_generic_periods := by rfl
  have h2 : parse_historical_consumption C3_consumption_payload =
      some C3_consumption_result := by rfl
  exact ⟨h1, C3_hourly_period_invariants.1 C3_generic_payload 0 C3_generic_periods h1,
    h2, C3_hourly_period_invariants.2 C3_consumption_payload C3_consumption_result h2⟩

/-! ## Claim C7 -/

lemma traverseOpt_length {α β : Type} (f : α → Option β) :
    ∀ (l : List α) (ys : List β), traverseOpt f l = some ys →
      ys.length = l.length := by
  intro l
  induction l with
  | nil =>
    intro ys h
    cases h
    rfl
  | cons x xs ih =>
    intro ys h
    simp only [traverseOpt] at h
    rcases hfx : f x with _ | y <;> rw [hfx] at h
    · cases h
    · rcases ht : traverseOpt f xs with _ | ys2 <;> rw [ht] at h
      · cases h
      · cases h
        simp [ih ys2 ht]

lemma traverseOpt_mem {α β : Type} (f : α → Option β) :
    ∀ (l : List α) (ys : List β), traverseOpt f l = some ys →
      ∀ y ∈ ys, ∃ x ∈ l, f x = some y := by
  intro l
  induction l with
  | nil =>
    intro ys h
    cases h
    intro y hy
    cases hy
  | cons x xs ih =>
    intro ys h
    simp only [traverseOpt] at h
    rcases hfx : f x with _ | y0 <;> rw [hfx] at h
    · cases h
    · rcases ht : traverseOpt f xs with _ | ys2 <;> rw [ht] at h
      · cases h
      · cases h
        intro y hy
        rcases List.mem_cons.mp hy with rfl | hy2
        · exact ⟨x, by simp, hfx⟩
        · obtain ⟨x2, hx2, hfx2⟩ := ih ys2 ht y hy2
          exact ⟨x2, by simp [hx2], hfx2⟩

/-- Stability of the stable insert step with respect to the timestamp key:
the elements at any fixed timestamp keep their relative order, the inserted
element going after none of them (elements it skips are strictly earlier). -/
lemma filter_dt_orderedInsert (k : Int) (a : DemandAtInstant) :
    ∀ l : List DemandAtInstant,
      (List.orderedInsert demandLE a l).filter (fun x => decide (x.dt = k)) =
        if a.dt = k then a :: l.filter (fun x => decide (x.dt = k))
        else l.filter (fun x => decide (x.dt = k)) := by
  intro l
  induction l with
  | nil =>
    by_cases hk : a.dt = k <;> simp [List.orderedInsert, List.filter, hk]
  | cons b l ih =>
    by_cases hab : demandLE a b
    · simp only [List.orderedInsert, if_pos hab]
      by_cases hk : a.dt = k <;> simp [List.filter_cons, hk]
    · simp only [List.orderedInsert, if_neg hab]
      have hb : b.dt < a.dt := by
        have := hab
        unfold demandLE at this
        omega
      rw [List.filter_cons, ih]
      by_cases hk : a.dt = k
      · have hbk : ¬(b.dt = k) := by omega
        simp [hk, hbk]
      · by_cases hbk : b.dt = k <;> simp [hk, hbk, List.filter_cons]

/-- Stability of `insertionSort` with respect to the timestamp key: sorting
preserves, for each timestamp, the subsequence of samples carrying it. -/
lemma filter_dt_insertionSort (k : Int) :
    ∀ l : List DemandAtInstant,
      (List.insertionSort demandLE l).filter (fun x => decide (x.dt = k)) =
        l.filter (fun x => decide (x.dt = k)) := by
  intro l
  induction l with
  | nil => rfl
  | cons b l ih =>
    rw [List.insertionSort, filter_dt_orderedInsert k b, ih, List.filter_cons]
    by_cases hk : b.dt = k <;> simp [hk]

/-- C7: on every payload it accepts, the power-demand parser flattens the
monthly sub-lists into one sequence with exactly one sample per input entry
(a permutation of the normalized flat sequence, of the same length as the
flattened input), each sample's timestamp parsed from its `"name"` field in
`d/m/Y H:M` format, and returns that sequence sorted ascending by timestamp;
the sort is stable: for every timestamp value, the samples carrying it appear
in their original flattened order. -/
theorem C7_power_demand_flatten_sort_stable :
    ∀ (data : Json) (months : List Json) (monthLists : List (List Json))
      (demands : List DemandAtInstant) (r : HistoricalPowerDemand),
      data.get? "potMaxMens" = some (.arr months) →
      traverseOpt asArr months = some monthLists →
      traverseOpt normalize_power_demand_item monthLists.flatten = some demands →
      parse_historical_power_demand_data data = some r →
      r.demands = List.insertionSort demandLE demands ∧
      r.demands.Perm demands ∧
      r.demands.length = monthLists.flatten.length ∧
      List.Sorted demandLE r.demands ∧
      (∀ k : Int, r.demands.filter (fun d => decide (d.dt = k)) =
        demands.filter (fun d => decide (d.dt = k))) ∧
      (∀ d ∈ r.demands, ∃ item ∈ monthLists.flatten, ∃ nm,
        item.get? "name" = some (.str nm) ∧ strptime_dmY_HM nm = some d.dt ∧
        item.get? "y" = some d.value) := by
  intro data months monthLists demands r hy h1 h2 hp
  have hr : r = ⟨List.insertionSort demandLE demands⟩ := by
    simp only [parse_historical_power_demand_data, hy, h1, h2, bind_eq_optionBind,
      Option.some_bind] at hp
    cases hp
    rfl
  subst hr
  refine ⟨rfl, List.perm_insertionSort demandLE demands, ?_, ?_, ?_, ?_⟩
  · exact (List.perm_insertionSort demandLE demands).length_eq.trans
      (traverseOpt_length _ _ _ h2)
  · exact List.sorted_insertionSort demandLE demands
  · intro k
    exact filter_dt_insertionSort k demands
  · intro d hd
    have hd2 : d ∈ demands := (List.perm_insertionSort demandLE demands).subset hd
    obtain ⟨item, hitem, hnorm⟩ := traverseOpt_mem _ _ _ h2 d hd2
    simp only [normalize_power_demand_item, bind_eq_optionBind,
      Option.bind_eq_some] at hnorm
    obtain ⟨nm, ⟨nj, hnj, hstr⟩, dt, hdt, y, hyv, hfin⟩ := hnorm
    rcases nj with _ | b | n | q | s | xs | kvs <;> simp only [asStr] at hstr
    iterate 4 cases hstr
    · cases hstr
      have hd3 : d = ⟨dt, y⟩ := by
        cases hfin
        rfl
      subst hd3
      exact ⟨item, hitem, nm, hnj, hdt, hyv⟩
    iterate 2 cases hstr

/-- Witness for C7 at the concrete payload: parsing flattens and sorts the
three samples, the result is sorted, a permutation of the flattened input
samples, and filtering at a tied-free timestamp agrees with the input order. -/
theorem C7_witness :
    parse_historical_power_demand_data C7_payload = some ⟨C7_sorted_demands⟩ ∧
    List.Sorted demandLE C7_sorted_demands ∧
    C7_sorted_demands.Perm C7_flat_demands ∧
    C7_sorted_demands.filter (fun d => decide (d.dt = 1650011400)) =
      C7_flat_demands.filter (fun d => decide (d.dt = 1650011400)) := by
  have hp : parse_historical_power_demand_data C7_payload =
      some ⟨C7_sorted_demands⟩ := by rfl
  have h := C7_power_demand_flatten_sort_stable C7_payload
    [.arr [.obj [("name", .str "28/05/2022 22:15"), ("y", .int 2816)],
           .obj [("name", .str "01/05/2022 10:00"), ("y", .int 100)]],
     .arr [.obj [("name", .str "15/04/2022 08:30"), ("y", .int 50)]]]
    [[.obj [("name", .str "28/05/2022 22:15"), ("y", .int 2816)],
      .obj [("name", .str "01/05/2022 10:00"), ("y", .int 100)]],
     [.obj [("name", .str "15/04/2022 08:30"), ("y", .int 50)]]]
    C7_flat_demands ⟨C7_sorted_demands⟩ rfl rfl (by rfl) hp
  exact ⟨hp, h.2.2.2.1, h.2.1, h.2.2.2.2.1 1650011400⟩

/-! ## Claim C4 -/

/-- C4: `login()` on a payload whose `"success"` field is the string `"true"`
assigns the login timestamp (whatever the preconfigured contract is), and with
no preconfigured contract returns the state with `login_ts = now`, on which
`is_logged` is true immediately (the session timeout being positive, as the
300-second default is); on a payload whose `"success"` field is the string
`"false"`, or which lacks the field, it raises `CommandError` carrying the
payload, and the state at raise time is the unchanged pre-state - in
particular `login_ts` and hence `is_logged` are unchanged (false if false
before). -/
theorem C4_login_success_and_failure :
    (∀ (c : ClientState) (now : Int) (kvs selResp : List (String × Json)),
      kvs.lookup "success" = some (.str "true") →
        ((∀ c2, login c now (.obj kvs) selResp = .ok c2 → c2.login_ts = some now) ∧
         (∀ e st, login c now (.obj kvs) selResp = .error (e, st) →
            st.login_ts = some now) ∧
         (c.contract = none →
            login c now (.obj kvs) selResp = .ok { c with login_ts := some now } ∧
            (0 < c.user_session_timeout →
              is_logged { c with login_ts := some now } now = true)))) ∧
    (∀ (c : ClientState) (now : Int) (kvs selResp : List (String × Json)),
      (kvs.lookup "success" = some (.str "false") ∨ kvs.lookup "success" = none) →
        login c now (.obj kvs) selResp = .error (.commandError (.obj kvs), c)) := by
  constructor
  · intro c now kvs selResp h
    have hval : eqStrTrue ((kvs.lookup "success").getD (.str "false")) = true := by
      rw [h]; rfl
    have hred : login c now (.obj kvs) selResp =
        match c.contract with
        | some id => select_contract { c with login_ts := some now } id selResp
        | none => .ok { c with login_ts := some now } := by
      simp only [login]
      rw [hval]
      simp
    refine ⟨?_, ?_, ?_⟩
    · intro c2 hc2
      rw [hred] at hc2
      rcases hcon : c.contract with _ | id <;> rw [hcon] at hc2
      · cases hc2
        rfl
      · simp only [select_contract] at hc2
        split at hc2
        · cases hc2
        · cases hc2
          rfl
    · intro e st hst
      rw [hred] at hst
      rcases hcon : c.contract with _ | id <;> rw [hcon] at hst
      · cases hst
      · simp only [select_contract] at hst
        split at hst
        · cases hst
          rfl
        · cases hst
    · intro hcon
      rw [hred, hcon]
      refine ⟨rfl, ?_⟩
      intro ht
      simp [is_logged]
      omega
  · intro c now kvs selResp h
    have hval : eqStrTrue ((kvs.lookup "success").getD (.str "false")) = false := by
      rcases h with h | h <;> rw [h] <;> rfl
    simp only [login]
    rw [hval]
    simp

/-- Witness for C4 at concrete inputs: a fresh default client logging in
against `"success": "true"` ends up logged in, and against
`"success": "false"` gets `CommandError` with the state unchanged. -/
theorem C4_witness :
    login (Client.initDefault "u" "p") 1000 (.obj [("success", .str "true")]) [] =
        .ok { Client.initDefault "u" "p" with login_ts := some 1000 } ∧
    is_logged { Client.initDefault "u" "p" with login_ts := some 1000 } 1000 = true ∧
    login (Client.initDefault "u" "p") 1000 (.obj [("success", .str "false")]) [] =
        .error (.commandError (.obj [("success", .str "false")]),
          Client.initDefault "u" "p") := by
  have h1 := (C4_login_success_and_failure.1 (Client.initDefault "u" "p") 1000
    [("success", .str "true")] [] (by rfl)).2.2 (by rfl)
  have h2 := C4_login_success_and_failure.2 (Client.initDefault "u" "p") 1000
    [("success", .str "false")] [] (Or.inl rfl)
  exact ⟨h1.1, h1.2 (by decide), h2⟩

/-! ## Claim C5 -/

/-- C5: `is_logged` is true exactly when a login timestamp exists and
`now - login_ts < user_session_timeout`; the timeout defaults to 300 seconds
and is configurable at construction.  `is_logged` is embedded as a pure
function of the state, which is faithful to the source: the property reads
`self._login_ts` and `self.user_session_timeout` and writes nothing. -/
theorem C5_is_logged_characterization :
    (∀ (c : ClientState) (now : Int),
      is_logged c now = true ↔
        ∃ ts, c.login_ts = some ts ∧ now - ts < c.user_session_timeout) ∧
    (∀ u p, (Client.initDefault u p).user_session_timeout = 300 ∧
      (Client.initDefault u p).login_ts = none ∧
      ∀ now, is_logged (Client.initDefault u p) now = false) ∧
    (∀ u p ct t ar, (Client.init u p ct t ar).user_session_timeout = t) := by
  refine ⟨?_, ?_, ?_⟩
  · intro c now
    rcases h : c.login_ts with _ | ts
    · simp [is_logged, h]
    · simp [is_logged, h]
  · intro u p
    exact ⟨rfl, rfl, fun _ => rfl⟩
  · intro u p ct t ar
    rfl

/-- Witness for C5 at a concrete state: a client that logged in 100 seconds
ago with the default 300-second timeout is logged in, and the timestamp
required by the characterization is exhibited. -/
theorem C5_witness :
    is_logged { Client.initDefault "u" "p" with login_ts := some 900 } 1000 = true ∧
    (Client.initDefault "u" "p").user_session_timeout = 300 := by
  refine ⟨?_, ((C5_is_logged_characterization.2.1 "u" "p").1 : _)⟩
  exact ((C5_is_logged_characterization.1
    { Client.initDefault "u" "p" with login_ts := some 900 } 1000).2
    ⟨900, rfl, by decide⟩)

/-! ## Claim C6 -/

/-- C6: the `auth_required` wrapper performs `login()` before the wrapped
operation exactly when auto-renew is enabled and `is_logged` is false; when
`is_logged` is true, or auto-renew is disabled, the wrapped operation runs
immediately on the unchanged state with no login call.  (In the source the
auto-renew flag is tested first and `and` short-circuits, but `is_logged` is a
pure read, so the login-performed condition is exactly the conjunction.) -/
theorem C6_auth_required_wrapping :
    ∀ {α : Type} (fn : ClientState → ClientStep α) (c : ClientState) (now : Int)
      (loginData : Json) (selResp : List (String × Json)),
      (is_logged c now = true →
        auth_required fn c now loginData selResp = (fn c, false)) ∧
      (c.auto_renew_user_session = false →
        auth_required fn c now loginData selResp = (fn c, false)) ∧
      (c.auto_renew_user_session = true → is_logged c now = false →
        (auth_required fn c now loginData selResp).2 = true ∧
        (∀ c2, login c now loginData selResp = .ok c2 →
          auth_required fn c now loginData selResp = (fn c2, true)) ∧
        (∀ e, login c now loginData selResp = .error e →
          auth_required fn c now loginData selResp = (.error e, true))) := by
  intro α fn c now loginData selResp
  refine ⟨?_, ?_, ?_⟩
  · intro h
    simp [auth_required, h]
  · intro h
    simp [auth_required, h]
  · intro har hnl
    have hcond : (c.auto_renew_user_session && !is_logged c now) = true := by
      rw [har, hnl]; rfl
    refine ⟨?_, ?_, ?_⟩
    · simp only [auth_required, hcond, if_true]
      rcases login c now loginData selResp with e | c2 <;> rfl
    · intro c2 h2
      simp [auth_required, hcond, h2]
    · intro e he
      simp [auth_required, hcond, he]

/-- Witness for C6 at concrete inputs: with auto-renew enabled and a
logged-out fresh client, the wrapper logs in first (flag `true`) and the
wrapped identity operation sees the logged-in state; with is_logged true the
wrapper is a no-op around the operation. -/
theorem C6_witness :
    auth_required (fun s => Except.ok s) (Client.initDefault "u" "p") 1000
        (.obj [("success", .str "true")]) [] =
      (Except.ok { Client.initDefault "u" "p" with login_ts := some 1000 }, true) ∧
    auth_required (fun s => Except.ok s)
        { Client.initDefault "u" "p" with login_ts := some 990 } 1000 .null [] =
      (Except.ok { Client.initDefault "u" "p" with login_ts := some 990 }, false) := by
  constructor
  · exact ((C6_auth_required_wrapping (fun s => Except.ok s)
      (Client.initDefault "u" "p") 1000 (.obj [("success", .str "true")]) []).2.2
      rfl rfl).2.1 _ (by rfl)
  · exact (C6_auth_required_wrapping (fun s => Except.ok s)
      { Client.initDefault "u" "p" with login_ts := some 990 } 1000 .null []).1
      (by decide)

/-! ## Claim C8 -/

/-- C8: `get_measure` raises `InvalidData` (never an unhandled
`KeyError`/`ValueError`) whenever `valLecturaContador` or `valMagnitud` is
missing or is a string that does not parse as the required numeric type
(an integer literal for the `accumulate` counter, a float literal for the
`instant` magnitude); when both fields are numeric strings of the required
forms it returns `Measure(accumulate=int(...), instant=float(...))`. -/
theorem C8_get_measure_classification :
    ∀ (data : List (String × Json)),
      ((data.lookup "valLecturaContador" = none ∨
        data.lookup "valMagnitud" = none ∨
        (∃ s, data.lookup "valLecturaContador" = some (.str s) ∧
          pyParseInt s = none) ∨
        (∃ s, data.lookup "valMagnitud" = some (.str s) ∧
          pyParseFloat s = none)) →
        get_measure data = .error (.invalidData (.obj data))) ∧
      (∀ sa sm a m,
        data.lookup "valLecturaContador" = some (.str sa) → pyParseInt sa = some a →
        data.lookup "valMagnitud" = some (.str sm) → pyParseFloat sm = some m →
        get_measure data = .ok ⟨a, m⟩) := by
  intro data
  constructor
  · intro h
    rcases h with h | h | ⟨s, hs, hp⟩ | ⟨s, hs, hp⟩
    · simp [get_measure, h]
    · simp only [get_measure, h, Option.none_bind]
      rcases (data.lookup "valLecturaContador").bind pyInt with _ | a <;> rfl
    · simp only [get_measure, hs, Option.some_bind, pyInt, hp]
    · simp only [get_measure, hs, Option.some_bind, pyFloat, hp]
      rcases (data.lookup "valLecturaContador").bind pyInt with _ | a <;> rfl
  · intro sa sm a m h1 h2 h3 h4
    simp [get_measure, h1, h2, h3, h4, pyInt, pyFloat]

/-- Witness for C8 at concrete payloads: the documented sample payload parses
to `Measure(43167, 158.64)`, and a payload whose counter field is the
non-numeric string `"x"` yields `InvalidData`. -/
theorem C8_witness :
    get_measure [("valLecturaContador", .str "43167"), ("valMagnitud", .str "158.64")] =
      .ok ⟨43167, (3966 : Rat)/25⟩ ∧
    get_measure [("valLecturaContador", .str "x"), ("valMagnitud", .str "158.64")] =
      .error (.invalidData (.obj
        [("valLecturaContador", .str "x"), ("valMagnitud", .str "158.64")])) := by
  have hm : pyParseFloat "158.64" = some ((3966 : Rat)/25) := by
    rw [pyParseFloat, show pyFloatParts "158.64" = some (1, 158, 64, 2, 0) from by decide]
    rw [Option.map_some']
    norm_num [ratOfParts, ratPow10]
  constructor
  · exact (C8_get_measure_classification _).2 "43167" "158.64" 43167 ((3966 : Rat)/25)
      rfl (by decide) rfl hm
  · exact (C8_get_measure_classification _).1
      (Or.inr (Or.inr (Or.inl ⟨"x", rfl, by decide⟩)))

/-! ## Claim C9 -/

/-- C9 (spec-modelled): with the expired-account sentinel branch restored from
the spec (its code is absent from the sources; only the `cli.py` caller that
catches `UserExpiredError` is present), `login()` fails with `InvalidData` on
a non-dict response, with `UserExpiredError` on a non-success response matching
the provider-specific expired-account sentinel, and with `CommandError` on any
other non-success response; the three failure classes are pairwise distinct
constructors, hence mutually distinguishable by the caller. -/
theorem C9_spec_login_failure_classes :
    ∀ (expiredSig : Json → Bool) (c : ClientState) (now : Int) (data : Json),
      ((∀ kvs, data ≠ .obj kvs) →
        spec_login expiredSig c now data = .error (.invalidData data)) ∧
      (∀ kvs, data = .obj kvs →
        eqStrTrue ((kvs.lookup "success").getD (.str "false")) = false →
        ((expiredSig data = true →
          spec_login expiredSig c now data = .error (.userExpired data)) ∧
         (expiredSig data = false →
          spec_login expiredSig c now data = .error (.commandError data)))) ∧
      (∀ d1 d2, (SpecLoginError.invalidData d1 ≠ SpecLoginError.commandError d2) ∧
        (SpecLoginError.invalidData d1 ≠ SpecLoginError.userExpired d2) ∧
        (SpecLoginError.commandError d1 ≠ SpecLoginError.userExpired d2)) := by
  intro expiredSig c now data
  refine ⟨?_, ?_, ?_⟩
  · intro h
    cases data with
    | obj kvs => exact absurd rfl (h kvs)
    | null => rfl
    | bool b => rfl
    | int n => rfl
    | float q => rfl
    | str s => rfl
    | arr xs => rfl
  · rintro kvs rfl hval
    constructor
    · intro hsig
      simp [spec_login, hval, hsig]
    · intro hsig
      simp [spec_login, hval, hsig]
  · intro d1 d2
    refine ⟨?_, ?_, ?_⟩ <;> intro h <;> cases h

/-- Witness for C9 at concrete inputs: with a sentinel that matches payloads
carrying `"message": "expired"`, a non-dict response gives `InvalidData`, the
expired payload gives `UserExpiredError`, and an ordinary bad-credentials
payload gives `CommandError`. -/
theorem C9_witness :
    spec_login (fun j => match j.get? "message" with | some (.str s) => s == "expired" | _ => false)
        (Client.initDefault "u" "p") 0 (.str "oops") =
      .error (.invalidData (.str "oops")) ∧
    spec_login (fun j => match j.get? "message" with | some (.str s) => s == "expired" | _ => false)
        (Client.initDefault "u" "p") 0
        (.obj [("success", .str "false"), ("message", .str "expired")]) =
      .error (.userExpired
        (.obj [("success", .str "false"), ("message", .str "expired")])) ∧
    spec_login (fun j => match j.get? "message" with | some (.str s) => s == "expired" | _ => false)
        (Client.initDefault "u" "p") 0
        (.obj [("success", .str "false"), ("message", .str "bad password")]) =
      .error (.commandError
        (.obj [("success", .str "false"), ("message", .str "bad password")])) := by
  refine ⟨?_, ?_, ?_⟩
  · exact (C9_spec_login_failure_classes _ (Client.initDefault "u" "p") 0
      (.str "oops")).1 (fun kvs h => by cases h)
  · exact ((C9_spec_login_failure_classes _ (Client.initDefault "u" "p") 0 _).2.1
      _ rfl (by rfl)).1 (by rfl)
  · exact ((C9_spec_login_failure_classes _ (Client.initDefault "u" "p") 0 _).2.1
      _ rfl (by rfl)).2 (by rfl)

/-! ## Claim C10 -/

/-- C10: `select_contract(id)` on a response without a truthy `"success"` field
(absent fields default to `False`) raises `InvalidContractError` carrying the
attempted id, with the carried state being the unchanged pre-state (in
particular the selected-contract field is untouched); only on a truthy
`"success"` does it return the state with the selected contract set to `id`
and everything else unchanged. -/
theorem C10_select_contract_atomicity :
    ∀ (c : ClientState) (id : String) (resp : List (String × Json)),
      (truthy ((resp.lookup "success").getD (.bool false)) = false →
        select_contract c id resp = .error (.invalidContract id, c)) ∧
      (truthy ((resp.lookup "success").getD (.bool false)) = true →
        select_contract c id resp = .ok { c with contract := some id }) := by
  intro c id resp
  constructor
  · intro h
    simp [select_contract, h]
  · intro h
    simp [select_contract, h]

/-- Witness for C10 at concrete inputs: a response with `"success": false`
leaves the previously selected contract in place and carries the attempted id
in the error; `"success": true` selects the contract. -/
theorem C10_witness :
    select_contract { Client.initDefault "u" "p" with contract := some "old" }
        "new" [("success", .bool false)] =
      .error (.invalidContract "new",
        { Client.initDefault "u" "p" with contract := some "old" }) ∧
    select_contract { Client.initDefault "u" "p" with contract := some "old" }
        "new" [("success", .bool true)] =
      .ok { Client.initDefault "u" "p" with contract := some "new" } := by
  constructor
  · exact (C10_select_contract_atomicity _ "new" [("success", .bool false)]).1 rfl
  · exact (C10_select_contract_atomicity _ "new" [("success", .bool true)]).2 rfl

end IdeEnergy
